import Mathlib

/-!
Formal model of the SmartHealthcare poster editor (the `EditorPage` React
component built on fabric.js): page geometry, scene model, layout import,
selection / style synchronization, viewport scaling and the asynchronous
image-decode pipeline, translated as a shallow embedding from the source.
Coordinates and scale factors are modelled as rationals.
-/

set_option autoImplicit false

namespace Poster

/-- Keys of the fixed `BASE_SIZES` table. -/
inductive PaperKey
  | letter
  | a4
  | a5
  | a6
  | postcard
  deriving DecidableEq

/-- Page orientation. -/
inductive PageOrient
  | portrait
  | landscape
  deriving DecidableEq

/-- The `BASE_SIZES` table from the source, in logical pixels. -/
def baseSizes : PaperKey → ℚ × ℚ
  | .letter => (816, 1056)
  | .a4 => (794, 1123)
  | .a5 => (559, 794)
  | .a6 => (397, 559)
  | .postcard => (400, 600)

/-- `getCanvasDimensions`: portrait keeps the base pair, landscape swaps it. -/
def getCanvasDimensions (k : PaperKey) (o : PageOrient) : ℚ × ℚ :=
  let base := baseSizes k
  match o with
  | .portrait => (base.1, base.2)
  | .landscape => (base.2, base.1)

/-- A fabric.js shadow: color and blur radius (the source only ever sets
these two fields of `fabric.Shadow`). -/
structure TextShadow where
  color : String
  blur : ℕ
  deriving DecidableEq

/-- Attributes of a `fabric.Textbox` that the source reads or writes.
Fields the source leaves unset carry fabric.js defaults. -/
structure TbData where
  text : String
  left : ℚ
  top : ℚ
  width : ℚ
  fontSize : ℕ
  fontFamily : String
  fill : String
  fontWeight : String
  fontStyle : String
  underline : Bool
  textAlign : String
  backgroundColor : String
  stroke : String
  strokeWidth : ℚ
  shadow : Option TextShadow
  deriving DecidableEq

/-- Attributes of a `fabric.Image` that the source sets. -/
structure ImgData where
  left : ℚ
  top : ℚ
  scaleX : ℚ
  scaleY : ℚ
  deriving DecidableEq

/-- The two kinds of drawable the editor creates. -/
inductive Payload
  | image (d : ImgData)
  | textbox (d : TbData)
  deriving DecidableEq

/-- A scene object: identity (standing for the JS object reference), the
common flip flags, and the variant data. -/
structure Obj where
  id : ℕ
  flipX : Bool
  flipY : Bool
  payload : Payload
  deriving DecidableEq

/-- The React style-form state (`useState` hooks of `EditorPage`). -/
structure StyleForm where
  fontColor : String
  bgColor : String
  bgOpacity : ℚ
  fontSize : ℕ
  fontFamily : String
  textAlign : String
  fontWeight : String
  fontStyle : String
  underline : Bool
  strokeColor : String
  strokeWidth : ℚ
  shadowColor : String
  shadowBlur : ℕ
  deriving DecidableEq

/-- The initial values of the style `useState` hooks. -/
def initialForm : StyleForm :=
  { fontColor := "#ffffff", bgColor := "#000000", bgOpacity := 0,
    fontSize := 24, fontFamily := "Helvetica", textAlign := "left",
    fontWeight := "normal", fontStyle := "normal", underline := false,
    strokeColor := "#000000", strokeWidth := 0,
    shadowColor := "#000000", shadowBlur := 0 }

/-- Value of one hex digit, as `parseInt(-, 16)` does per character. -/
def hexDigit (c : Char) : ℕ :=
  if c.toNat ≥ 48 ∧ c.toNat ≤ 57 then c.toNat - 48
  else if c.toNat ≥ 97 ∧ c.toNat ≤ 102 then c.toNat - 87
  else if c.toNat ≥ 65 ∧ c.toNat ≤ 70 then c.toNat - 55
  else 0

/-- `hexToRgb` from the source: parse `#rrggbb` into `"r,g,b"`. -/
def hexToRgb (hex : String) : String :=
  match hex.toList with
  | _ :: a :: b :: c :: d :: e :: f :: _ =>
      toString (16 * hexDigit a + hexDigit b) ++ "," ++
      toString (16 * hexDigit c + hexDigit d) ++ "," ++
      toString (16 * hexDigit e + hexDigit f)
  | _ => "NaN,NaN,NaN"

/-- The `rgba(...)` strings the source builds for `backgroundColor`. -/
def rgbaString (hex : String) (opacity : ℚ) : String :=
  "rgba(" ++ hexToRgb hex ++ "," ++ toString opacity ++ ")"

/-- One `set(prop, val)` call on a textbox, per property the source uses. -/
inductive StyleEdit
  | setText (v : String)
  | setFill (v : String)
  | setFontSize (v : ℕ)
  | setFontFamily (v : String)
  | setFontWeight (v : String)
  | setFontStyle (v : String)
  | setUnderline (v : Bool)
  | setTextAlign (v : String)
  | setStroke (v : String)
  | setStrokeWidth (v : ℚ)
  | setShadow (v : Option TextShadow)
  | setBackgroundColor (v : String)
  deriving DecidableEq

/-- `fabric.Object.set(prop, val)`: update exactly the named attribute. -/
def applyEdit : StyleEdit → TbData → TbData
  | .setText v, tb => { tb with text := v }
  | .setFill v, tb => { tb with fill := v }
  | .setFontSize v, tb => { tb with fontSize := v }
  | .setFontFamily v, tb => { tb with fontFamily := v }
  | .setFontWeight v, tb => { tb with fontWeight := v }
  | .setFontStyle v, tb => { tb with fontStyle := v }
  | .setUnderline v, tb => { tb with underline := v }
  | .setTextAlign v, tb => { tb with textAlign := v }
  | .setStroke v, tb => { tb with stroke := v }
  | .setStrokeWidth v, tb => { tb with strokeWidth := v }
  | .setShadow v, tb => { tb with shadow := v }
  | .setBackgroundColor v, tb => { tb with backgroundColor := v }

/-- The names of the textbox attributes, for frame-condition statements. -/
inductive StyleField
  | text
  | fill
  | fontSize
  | fontFamily
  | fontWeight
  | fontStyle
  | underline
  | textAlign
  | stroke
  | strokeWidth
  | shadow
  | backgroundColor
  deriving DecidableEq

/-- A heterogeneous attribute value. -/
inductive FieldVal
  | vs (v : String)
  | vn (v : ℕ)
  | vq (v : ℚ)
  | vb (v : Bool)
  | vsh (v : Option TextShadow)
  deriving DecidableEq

/-- Read one named attribute of a textbox. -/
def getF : StyleField → TbData → FieldVal
  | .text, tb => .vs tb.text
  | .fill, tb => .vs tb.fill
  | .fontSize, tb => .vn tb.fontSize
  | .fontFamily, tb => .vs tb.fontFamily
  | .fontWeight, tb => .vs tb.fontWeight
  | .fontStyle, tb => .vs tb.fontStyle
  | .underline, tb => .vb tb.underline
  | .textAlign, tb => .vs tb.textAlign
  | .stroke, tb => .vs tb.stroke
  | .strokeWidth, tb => .vq tb.strokeWidth
  | .shadow, tb => .vsh tb.shadow
  | .backgroundColor, tb => .vs tb.backgroundColor

/-- The attribute a `StyleEdit` names. -/
def editField : StyleEdit → StyleField
  | .setText _ => .text
  | .setFill _ => .fill
  | .setFontSize _ => .fontSize
  | .setFontFamily _ => .fontFamily
  | .setFontWeight _ => .fontWeight
  | .setFontStyle _ => .fontStyle
  | .setUnderline _ => .underline
  | .setTextAlign _ => .textAlign
  | .setStroke _ => .stroke
  | .setStrokeWidth _ => .strokeWidth
  | .setShadow _ => .shadow
  | .setBackgroundColor _ => .backgroundColor

/-- The value a `StyleEdit` writes. -/
def editValue : StyleEdit → FieldVal
  | .setText v => .vs v
  | .setFill v => .vs v
  | .setFontSize v => .vn v
  | .setFontFamily v => .vs v
  | .setFontWeight v => .vs v
  | .setFontStyle v => .vs v
  | .setUnderline v => .vb v
  | .setTextAlign v => .vs v
  | .setStroke v => .vs v
  | .setStrokeWidth v => .vq v
  | .setShadow v => .vsh v
  | .setBackgroundColor v => .vs v

/-- A layout hint: x,y as percentages of the page dimensions. -/
structure Hint where
  x : ℚ
  y : ℚ
  deriving DecidableEq

/-- A supplied `layout_json` object; a JS object may lack any of the keys
the source reads (`headline`, `tagline`, `cta_text`), hence `Option`. -/
structure LayoutJson where
  headline : Option Hint
  tagline : Option Hint
  cta_text : Option Hint
  deriving DecidableEq

/-- The three caption strings of the supplied content. -/
structure Captions where
  headline : String
  tagline : String
  cta : String
  deriving DecidableEq

/-- Externally supplied content. `imageDims` is the natural (width, height)
of the decoded `images_b64[0]`, `none` when no image is supplied. -/
structure Content where
  captions : Captions
  layout_json : Option LayoutJson
  imageDims : Option (ℚ × ℚ)
  deriving DecidableEq

/-- An in-flight background-image decode: the bitmap's natural size and the
page width/height captured by the `onload` closure at import time. -/
structure PendingDecode where
  imgW : ℚ
  imgH : ℚ
  capW : ℚ
  capH : ℚ
  deriving DecidableEq

/-- The editor session state: the fabric canvas object list (index 0 is
back-most), the selected object (by identity), the style form, a fresh-id
counter standing for JS object allocation, the in-flight decodes, and the
current page spec. -/
structure EditorState where
  scene : List Obj
  selection : Option ℕ
  form : StyleForm
  nextId : ℕ
  pending : List PendingDecode
  posterSize : PaperKey
  orient : PageOrient
  deriving DecidableEq

/-- State at mount: empty canvas, no selection, initial form, A4 portrait. -/
def initialState : EditorState :=
  { scene := [], selection := none, form := initialForm, nextId := 0,
    pending := [], posterSize := .a4, orient := .portrait }

/-- A caption textbox as built by the importer's `addText` helper before the
per-field extras: `left`/`top` from the percentage hint, width `0.8 * w`,
fontSize 24, white fill, transparent background. Attributes the source does
not pass take the fabric.js Textbox defaults (stroke null — modelled as `""`
— strokeWidth 1, no shadow, left alignment, "Times New Roman" family). -/
def baseCaption (text : String) (pos : Hint) (w h : ℚ) : TbData :=
  { text := text, left := pos.x / 100 * w, top := pos.y / 100 * h,
    width := w * (8 / 10), fontSize := 24, fontFamily := "Times New Roman",
    fill := "#ffffff", fontWeight := "normal", fontStyle := "normal",
    underline := false, textAlign := "left", backgroundColor := "transparent",
    stroke := "", strokeWidth := 1, shadow := none }

/-- The headline caption: bold, fontSize 36. -/
def headlineTb (text : String) (pos : Hint) (w h : ℚ) : TbData :=
  { baseCaption text pos w h with fontWeight := "bold", fontSize := 36 }

/-- The tagline caption: italic, fontSize 24. -/
def taglineTb (text : String) (pos : Hint) (w h : ℚ) : TbData :=
  { baseCaption text pos w h with fontStyle := "italic", fontSize := 24 }

/-- The call-to-action caption: accent fill, fontSize 20. -/
def ctaTb (text : String) (pos : Hint) (w h : ℚ) : TbData :=
  { baseCaption text pos w h with fill := "#00bfff", fontSize := 20 }

/-- `content.layout_json || {headline:{x:10,y:15}, tagline:{x:10,y:25},
cta_text:{x:10,y:35}}` — the default triple replaces only a wholly absent
`layout_json`. -/
def resolvedLayout (lj : Option LayoutJson) : LayoutJson :=
  lj.getD ⟨some ⟨10, 15⟩, some ⟨10, 25⟩, some ⟨10, 35⟩⟩

/-- Importing the three captions in source order. Reading `pos.x` of a
missing key of a present `layout_json` throws a TypeError in JS, so
importing stops there: the result is the list of textboxes actually added
before the failure, plus the error, if any. -/
def importCaptions (caps : Captions) (lj : Option LayoutJson) (w h : ℚ) :
    List TbData × Option String :=
  let L := resolvedLayout lj
  match L.headline with
  | none => ([], some "TypeError: cannot read x of undefined")
  | some p1 =>
    let t1 := headlineTb caps.headline p1 w h
    match L.tagline with
    | none => ([t1], some "TypeError: cannot read x of undefined")
    | some p2 =>
      let t2 := taglineTb caps.tagline p2 w h
      match L.cta_text with
      | none => ([t1, t2], some "TypeError: cannot read x of undefined")
      | some p3 => ([t1, t2, ctaTb caps.cta p3 w h], none)

/-- Wrap imported textboxes as scene objects with consecutive fresh ids. -/
def assignIds (n : ℕ) : List TbData → List Obj
  | [] => []
  | tb :: rest => ⟨n, false, false, .textbox tb⟩ :: assignIds (n + 1) rest

/-- The load-content effect: `canvas.clear()` (which also discards the
active object), register the background-image decode if an image is
supplied — its `onload` closure captures the page dimensions of this run —
then add the three captions. A previously registered decode is *not*
cancelled; it stays pending. -/
def loadContent (c : Content) (s : EditorState) : EditorState :=
  let d := getCanvasDimensions s.posterSize s.orient
  let tbs := (importCaptions c.captions c.layout_json d.1 d.2).1
  { s with
    scene := assignIds s.nextId tbs,
    selection := none,
    nextId := s.nextId + tbs.length,
    pending := s.pending ++
      (match c.imageDims with
       | some p => [⟨p.1, p.2, d.1, d.2⟩]
       | none => []) }

/-- The scale the `onload` handler computes:
`imgW/imgH > pageW/pageH ? pageW/imgW : pageH/imgH`. -/
def coverScale (iw ih w h : ℚ) : ℚ :=
  if iw / ih > w / h then w / iw else h / ih

/-- Completion of the k-th in-flight decode: build the fabric image with the
dimensions its closure captured, scale it, center it on the captured page,
`canvas.add` it and `canvas.sendObjectToBack` it (index 0 = back-most).
There is no staleness check in the source. -/
def decodeComplete (k : ℕ) (s : EditorState) : EditorState :=
  match s.pending.get? k with
  | none => s
  | some p =>
    let sc := coverScale p.imgW p.imgH p.capW p.capH
    { s with
      scene := ⟨s.nextId, false, false, .image ⟨p.capW / 2, p.capH / 2, sc, sc⟩⟩ :: s.scene,
      nextId := s.nextId + 1,
      pending := s.pending.eraseIdx k }

/-- `handleAddText`: a new textbox at (100, 100), width 300, styled from the
current form (shadow only when the current blur is nonzero), appended at the
front of the z-order and made the active object. -/
def newTextbox (f : StyleForm) : TbData :=
  { text := "New text", left := 100, top := 100, width := 300,
    fontSize := f.fontSize, fontFamily := f.fontFamily, fill := f.fontColor,
    fontWeight := f.fontWeight, fontStyle := f.fontStyle,
    underline := f.underline, textAlign := "left",
    backgroundColor := rgbaString f.bgColor f.bgOpacity,
    stroke := f.strokeColor, strokeWidth := f.strokeWidth,
    shadow := if f.shadowBlur ≠ 0 then some ⟨f.shadowColor, f.shadowBlur⟩ else none }

def handleAddText (s : EditorState) : EditorState :=
  { s with
    scene := s.scene ++ [⟨s.nextId, false, false, .textbox (newTextbox s.form)⟩],
    selection := some s.nextId,
    nextId := s.nextId + 1 }

/-- Completion of an uploaded image's decode: fixed position and scale,
appended at front and selected. -/
def uploadComplete (s : EditorState) : EditorState :=
  { s with
    scene := s.scene ++ [⟨s.nextId, false, false, .image ⟨50, 50, 1 / 2, 1 / 2⟩⟩],
    selection := some s.nextId,
    nextId := s.nextId + 1 }

/-- `handleDelete`: nothing happens with no selection; otherwise
`canvas.remove(selectedObject)` and `setSelectedObject(null)`. -/
def handleDelete (s : EditorState) : EditorState :=
  match s.selection with
  | none => s
  | some i =>
    { s with scene := s.scene.filter (fun o => o.id ≠ i), selection := none }

/-- Re-synchronization of the form on selecting a textbox (`handleSelect`):
the source copies fill, fontSize, fontFamily, textAlign, fontWeight,
fontStyle and underline, each through a `||`-default; the stroke, shadow and
background form fields are left as they were. -/
def syncForm (tb : TbData) (f : StyleForm) : StyleForm :=
  { f with
    fontColor := tb.fill,
    fontSize := if tb.fontSize ≠ 0 then tb.fontSize else 24,
    fontFamily := if tb.fontFamily ≠ "" then tb.fontFamily else "Helvetica",
    textAlign := if tb.textAlign ≠ "" then tb.textAlign else "left",
    fontWeight := if tb.fontWeight ≠ "" then tb.fontWeight else "normal",
    fontStyle := if tb.fontStyle ≠ "" then tb.fontStyle else "normal",
    underline := tb.underline }

/-- A `selection:created`/`selection:updated` event for the object `i` (the
canvas only emits objects that are on it). -/
def handleSelect (i : ℕ) (s : EditorState) : EditorState :=
  match s.scene.find? (fun o => o.id == i) with
  | none => s
  | some o =>
    match o.payload with
    | .textbox tb => { s with selection := some i, form := syncForm tb s.form }
    | .image _ => { s with selection := some i }

/-- `selection:cleared` (click on empty canvas). -/
def handleClear (s : EditorState) : EditorState :=
  { s with selection := none }

/-- The per-object effect of `updateSelected`: apply the edit to the object
with the selected identity when it is a textbox, keep everything else. -/
def setObj (e : StyleEdit) (i : ℕ) (o : Obj) : Obj :=
  if o.id = i then
    match o.payload with
    | .textbox tb => { o with payload := .textbox (applyEdit e tb) }
    | .image _ => o
  else o

/-- `updateSelected(prop, val)`: set the property on the selected object
when it is a textbox; do nothing otherwise. -/
def setOnSelected (e : StyleEdit) (s : EditorState) : EditorState :=
  match s.selection with
  | none => s
  | some i => { s with scene := s.scene.map (setObj e i) }

/-- `flipHorizontal`: toggle `flipX` of the selected object. -/
def flipHorizontal (s : EditorState) : EditorState :=
  match s.selection with
  | none => s
  | some i =>
    { s with scene := s.scene.map fun o =>
        if o.id = i then { o with flipX := !o.flipX } else o }

/-- `flipVertical`: toggle `flipY` of the selected object. -/
def flipVertical (s : EditorState) : EditorState :=
  match s.selection with
  | none => s
  | some i =>
    { s with scene := s.scene.map fun o =>
        if o.id = i then { o with flipY := !o.flipY } else o }

/-- `bringObjectToFront`: move the selected object to the end of the list. -/
def bringFront (s : EditorState) : EditorState :=
  match s.selection with
  | none => s
  | some i =>
    { s with scene :=
        s.scene.filter (fun o => o.id ≠ i) ++ s.scene.filter (fun o => o.id = i) }

/-- `sendObjectToBack`: move the selected object to the start of the list. -/
def sendBack (s : EditorState) : EditorState :=
  match s.selection with
  | none => s
  | some i =>
    { s with scene :=
        s.scene.filter (fun o => o.id = i) ++ s.scene.filter (fun o => o.id ≠ i) }

/-- The sidebar control events, as the source's `onChange`/`onClick`
handlers fire them. -/
inductive UiEdit
  | editText (v : String)
  | toggleBold
  | toggleItalic
  | toggleUnderline
  | fontColor (v : String)
  | strokeColor (v : String)
  | strokeWidth (v : ℚ)
  | shadowBlur (v : ℕ)
  | shadowColor (v : String)
  | bgColor (v : String)
  | bgOpacity (v : ℚ)
  | fontSize (v : ℕ)
  | textAlign (v : String)
  deriving DecidableEq

/-- Each handler updates its form `useState` and pushes the value onto the
selected object via `updateSelected`, exactly as in the source (reads of
other form fields use the values current at the event). -/
def applyUi : UiEdit → EditorState → EditorState
  | .editText v, s => setOnSelected (.setText v) s
  | .toggleBold, s =>
      let v := if s.form.fontWeight = "bold" then "normal" else "bold"
      setOnSelected (.setFontWeight v) { s with form := { s.form with fontWeight := v } }
  | .toggleItalic, s =>
      let v := if s.form.fontStyle = "italic" then "normal" else "italic"
      setOnSelected (.setFontStyle v) { s with form := { s.form with fontStyle := v } }
  | .toggleUnderline, s =>
      let v := !s.form.underline
      setOnSelected (.setUnderline v) { s with form := { s.form with underline := v } }
  | .fontColor v, s =>
      setOnSelected (.setFill v) { s with form := { s.form with fontColor := v } }
  | .strokeColor v, s =>
      setOnSelected (.setStroke v) { s with form := { s.form with strokeColor := v } }
  | .strokeWidth v, s =>
      setOnSelected (.setStrokeWidth v) { s with form := { s.form with strokeWidth := v } }
  | .shadowBlur v, s =>
      setOnSelected
        (.setShadow (if v ≠ 0 then some ⟨s.form.shadowColor, v⟩ else none))
        { s with form := { s.form with shadowBlur := v } }
  | .shadowColor v, s =>
      setOnSelected
        (.setShadow (if s.form.shadowBlur ≠ 0 then some ⟨v, s.form.shadowBlur⟩ else none))
        { s with form := { s.form with shadowColor := v } }
  | .bgColor v, s =>
      setOnSelected (.setBackgroundColor (rgbaString v s.form.bgOpacity))
        { s with form := { s.form with bgColor := v } }
  | .bgOpacity v, s =>
      setOnSelected (.setBackgroundColor (rgbaString s.form.bgColor v))
        { s with form := { s.form with bgOpacity := v } }
  | .fontSize v, s =>
      setOnSelected (.setFontSize v) { s with form := { s.form with fontSize := v } }
  | .textAlign v, s =>
      setOnSelected (.setTextAlign v) { s with form := { s.form with textAlign := v } }

/-- Changing the poster size or orientation re-runs the load-content effect
on the new page dimensions (a full rebuild). -/
def changePage (k : PaperKey) (o : PageOrient) (c : Content) (s : EditorState) :
    EditorState :=
  loadContent c { s with posterSize := k, orient := o }

/-- The on-screen viewport scale. -/
structure ViewportState where
  zoom : ℚ
  deriving DecidableEq

/-- `resizeCanvas`: `scale = Math.min(cw / w, ch / h)` followed
unconditionally by `canvas.setZoom(scale)` / `setZoom(scale)` — the source
has no guard for a zero-sized container. -/
def resizeUpdate (cw ch w h : ℚ) (_v : ViewportState) : ViewportState :=
  ⟨min (cw / w) (ch / h)⟩

/-- One user-interaction or environment event of the editor session. -/
inductive Step : EditorState → EditorState → Prop
  | load (c : Content) (s : EditorState) : Step s (loadContent c s)
  | page (k : PaperKey) (o : PageOrient) (c : Content) (s : EditorState) :
      Step s (changePage k o c s)
  | decode (k : ℕ) (s : EditorState) : Step s (decodeComplete k s)
  | addText (s : EditorState) : Step s (handleAddText s)
  | upload (s : EditorState) : Step s (uploadComplete s)
  | delete (s : EditorState) : Step s (handleDelete s)
  | select (i : ℕ) (s : EditorState) : Step s (handleSelect i s)
  | clear (s : EditorState) : Step s (handleClear s)
  | ui (e : UiEdit) (s : EditorState) : Step s (applyUi e s)
  | flipH (s : EditorState) : Step s (flipHorizontal s)
  | flipV (s : EditorState) : Step s (flipVertical s)
  | front (s : EditorState) : Step s (bringFront s)
  | back (s : EditorState) : Step s (sendBack s)

/-- Editor states reachable from mount through the source's handlers. -/
inductive Reachable : EditorState → Prop
  | init : Reachable initialState
  | step {s t : EditorState} : Reachable s → Step s t → Reachable t

/-- Every object id is below the allocation counter. -/
def IdsOk (s : EditorState) : Prop :=
  ∀ o ∈ s.scene, o.id < s.nextId

/-- A selected id always refers to an object present in the scene. -/
def SelOk (s : EditorState) : Prop :=
  ∀ i, s.selection = some i → ∃ o ∈ s.scene, o.id = i

/-- A shadow attached to any textbox in the scene has nonzero blur. -/
def ShadowOk (s : EditorState) : Prop :=
  ∀ o ∈ s.scene, ∀ tb, o.payload = Payload.textbox tb →
    ∀ sh, tb.shadow = some sh → sh.blur ≠ 0

/-- The editor-session invariant. -/
def Inv (s : EditorState) : Prop :=
  IdsOk s ∧ SelOk s ∧ ShadowOk s

/-- A `set` call that never attaches a zero-blur shadow. -/
def GoodEdit : StyleEdit → Prop
  | .setShadow (some sh) => sh.blur ≠ 0
  | _ => True

/-- After a sidebar edit, the agreement the source establishes between the
post-edit form and the post-edit selected textbox. -/
def uiAgrees : UiEdit → StyleForm → TbData → Prop
  | .editText v, _, tb => tb.text = v
  | .toggleBold, f, tb => tb.fontWeight = f.fontWeight
  | .toggleItalic, f, tb => tb.fontStyle = f.fontStyle
  | .toggleUnderline, f, tb => tb.underline = f.underline
  | .fontColor v, f, tb => tb.fill = f.fontColor ∧ f.fontColor = v
  | .strokeColor v, f, tb => tb.stroke = f.strokeColor ∧ f.strokeColor = v
  | .strokeWidth v, f, tb => tb.strokeWidth = f.strokeWidth ∧ f.strokeWidth = v
  | .shadowBlur v, f, tb =>
      f.shadowBlur = v ∧
      tb.shadow = (if f.shadowBlur ≠ 0 then some ⟨f.shadowColor, f.shadowBlur⟩ else none)
  | .shadowColor v, f, tb =>
      f.shadowColor = v ∧
      tb.shadow = (if f.shadowBlur ≠ 0 then some ⟨f.shadowColor, f.shadowBlur⟩ else none)
  | .bgColor v, f, tb =>
      f.bgColor = v ∧ tb.backgroundColor = rgbaString f.bgColor f.bgOpacity
  | .bgOpacity v, f, tb =>
      f.bgOpacity = v ∧ tb.backgroundColor = rgbaString f.bgColor f.bgOpacity
  | .fontSize v, f, tb => tb.fontSize = f.fontSize ∧ f.fontSize = v
  | .textAlign v, f, tb => tb.textAlign = f.textAlign ∧ f.textAlign = v

/-- The stroke color of an object, when it is a textbox. -/
def strokeOf (o : Obj) : Option String :=
  match o.payload with
  | .textbox tb => some tb.stroke
  | .image _ => none

/-- A session exhibiting form/object divergence: add a textbox, restyle its
stroke, add a second textbox, restyle that one's stroke, then click the
first textbox again. -/
def divergeState : EditorState :=
  handleSelect 0
    (applyUi (.strokeColor "#00ff00")
      (handleAddText
        (applyUi (.strokeColor "#ff0000")
          (handleAddText initialState))))

/-- Content with a background image of natural size 1000×500 and no layout
hints, used to exhibit the decode-completion race. -/
def raceContent : Content :=
  ⟨⟨"H", "T", "C"⟩, none, some (1000, 500)⟩

/-- Import on the initial A4-portrait page, then switch the poster size to
Postcard (rebuilding the scene), then let the first import's image decode
complete late. -/
def raceFinal : EditorState :=
  decodeComplete 0
    (changePage .postcard .portrait raceContent
      (loadContent raceContent initialState))

end Poster

namespace Poster

/-! ## Generic helper lemmas -/

theorem assignIds_id_bounds (l : List TbData) :
    ∀ (n : ℕ), ∀ o ∈ assignIds n l, n ≤ o.id ∧ o.id < n + l.length := by
  induction l with
  | nil => intro n o ho; simp [assignIds] at ho
  | cons tb rest ih =>
    intro n o ho
    simp only [assignIds, List.mem_cons] at ho
    rcases ho with rfl | ho
    · simp
    · have := ih (n + 1) o ho
      constructor <;> [omega; simpa [Nat.add_assoc, Nat.add_comm 1] using this.2]

theorem assignIds_payload (l : List TbData) :
    ∀ (n : ℕ), ∀ o ∈ assignIds n l, ∃ tb ∈ l, o.payload = Payload.textbox tb := by
  induction l with
  | nil => intro n o ho; simp [assignIds] at ho
  | cons tb rest ih =>
    intro n o ho
    simp only [assignIds, List.mem_cons] at ho
    rcases ho with rfl | ho
    · exact ⟨tb, by simp, rfl⟩
    · obtain ⟨tb', htb', hp⟩ := ih (n + 1) o ho
      exact ⟨tb', by simp [htb'], hp⟩

theorem importCaptions_shadow (caps : Captions) (lj : Option LayoutJson) (w h : ℚ) :
    ∀ tb ∈ (importCaptions caps lj w h).1, tb.shadow = none := by
  intro tb htb
  unfold importCaptions at htb
  rcases h1 : (resolvedLayout lj).headline with _ | p1 <;> simp only [h1] at htb
  · simp at htb
  rcases h2 : (resolvedLayout lj).tagline with _ | p2 <;> simp only [h2] at htb
  · simp at htb
    subst htb
    rfl
  rcases h3 : (resolvedLayout lj).cta_text with _ | p3 <;> simp only [h3] at htb <;>
    simp at htb <;> rcases htb with rfl | rfl | rfl <;> rfl

/-! ## Preservation of the session invariant by every editor operation -/

theorem inv_loadContent (c : Content) (s : EditorState) :
    Inv (loadContent c s) := by
  refine ⟨?_, ?_, ?_⟩
  · intro o ho
    simp only [loadContent] at ho ⊢
    have := assignIds_id_bounds _ s.nextId o ho
    omega
  · intro i hi
    simp [loadContent] at hi
  · intro o ho tb hp sh hs
    simp only [loadContent] at ho
    obtain ⟨tb', htb', hpay⟩ := assignIds_payload _ s.nextId o ho
    rw [hp] at hpay
    injection hpay with h
    subst h
    rw [importCaptions_shadow _ _ _ _ _ htb'] at hs
    cases hs

theorem inv_handleAddText {s : EditorState} (h : Inv s) : Inv (handleAddText s) := by
  obtain ⟨hi, _, hsh⟩ := h
  refine ⟨?_, ?_, ?_⟩
  · intro o ho
    simp only [handleAddText, List.mem_append, List.mem_singleton] at ho
    simp only [handleAddText]
    rcases ho with ho | rfl
    · have := hi o ho; omega
    · simp
  · intro i hi2
    simp only [handleAddText, Option.some.injEq] at hi2
    subst hi2
    exact ⟨⟨s.nextId, false, false, .textbox (newTextbox s.form)⟩, by simp [handleAddText], rfl⟩
  · intro o ho tb hp sh hs
    simp only [handleAddText, List.mem_append, List.mem_singleton] at ho
    rcases ho with ho | rfl
    · exact hsh o ho tb hp sh hs
    · simp only at hp
      injection hp with h
      subst h
      simp only [newTextbox] at hs
      split at hs
      · injection hs with h2
        subst h2
        simpa using by assumption
      · cases hs

theorem inv_uploadComplete {s : EditorState} (h : Inv s) : Inv (uploadComplete s) := by
  obtain ⟨hi, _, hsh⟩ := h
  refine ⟨?_, ?_, ?_⟩
  · intro o ho
    simp only [uploadComplete, List.mem_append, List.mem_singleton] at ho
    simp only [uploadComplete]
    rcases ho with ho | rfl
    · have := hi o ho; omega
    · simp
  · intro i hi2
    simp only [uploadComplete, Option.some.injEq] at hi2
    subst hi2
    exact ⟨⟨s.nextId, false, false, .image ⟨50, 50, 1 / 2, 1 / 2⟩⟩, by simp [uploadComplete], rfl⟩
  · intro o ho tb hp sh hs
    simp only [uploadComplete, List.mem_append, List.mem_singleton] at ho
    rcases ho with ho | rfl
    · exact hsh o ho tb hp sh hs
    · cases hp

theorem inv_decodeComplete (k : ℕ) {s : EditorState} (h : Inv s) :
    Inv (decodeComplete k s) := by
  obtain ⟨hi, hsel, hsh⟩ := h
  unfold decodeComplete
  cases hp : s.pending.get? k with
  | none => exact ⟨hi, hsel, hsh⟩
  | some p =>
    refine ⟨?_, ?_, ?_⟩
    · intro o ho
      simp only [List.mem_cons] at ho
      rcases ho with rfl | ho
      · simp
      · have := hi o ho; simp only; omega
    · intro i hi2
      simp only at hi2
      obtain ⟨o, ho, hid⟩ := hsel i hi2
      exact ⟨o, by simp [ho], hid⟩
    · intro o ho tb hpay sh hs
      simp only [List.mem_cons] at ho
      rcases ho with rfl | ho
      · cases hpay
      · exact hsh o ho tb hpay sh hs

theorem inv_handleDelete {s : EditorState} (h : Inv s) : Inv (handleDelete s) := by
  obtain ⟨hi, hsel, hsh⟩ := h
  unfold handleDelete
  cases hs : s.selection with
  | none => exact ⟨hi, hsel, hsh⟩
  | some i =>
    refine ⟨?_, ?_, ?_⟩
    · intro o ho
      exact hi o (List.mem_of_mem_filter ho)
    · intro j hj
      simp at hj
    · intro o ho tb hp sh hsh2
      exact hsh o (List.mem_of_mem_filter ho) tb hp sh hsh2

theorem handleSelect_scene (i : ℕ) (s : EditorState) :
    (handleSelect i s).scene = s.scene := by
  unfold handleSelect
  cases s.scene.find? (fun o => o.id == i) with
  | none => rfl
  | some o =>
    obtain ⟨oid, fx, fy, pay⟩ := o
    cases pay <;> rfl

theorem handleSelect_nextId (i : ℕ) (s : EditorState) :
    (handleSelect i s).nextId = s.nextId := by
  unfold handleSelect
  cases s.scene.find? (fun o => o.id == i) with
  | none => rfl
  | some o =>
    obtain ⟨oid, fx, fy, pay⟩ := o
    cases pay <;> rfl

theorem handleSelect_selection (i : ℕ) (s : EditorState) :
    (handleSelect i s).selection = s.selection ∨
      ((handleSelect i s).selection = some i ∧ ∃ o ∈ s.scene, o.id = i) := by
  unfold handleSelect
  cases hf : s.scene.find? (fun o => o.id == i) with
  | none => exact Or.inl rfl
  | some o =>
    have hmem : o ∈ s.scene := List.mem_of_find?_eq_some hf
    have hid : o.id = i := by simpa using List.find?_some hf
    obtain ⟨oid, fx, fy, pay⟩ := o
    cases pay <;> exact Or.inr ⟨rfl, _, hmem, hid⟩

theorem inv_handleSelect (i : ℕ) {s : EditorState} (h : Inv s) :
    Inv (handleSelect i s) := by
  obtain ⟨hi, hsel, hsh⟩ := h
  have hsc := handleSelect_scene i s
  refine ⟨?_, ?_, ?_⟩
  · intro o ho
    rw [hsc] at ho
    rw [handleSelect_nextId]
    exact hi o ho
  · intro j hj
    rcases handleSelect_selection i s with hcase | ⟨hcase, o, ho, hid⟩
    · rw [hcase] at hj
      obtain ⟨o, ho, hid⟩ := hsel j hj
      exact ⟨o, by rw [hsc]; exact ho, hid⟩
    · rw [hcase] at hj
      injection hj with hj
      subst hj
      exact ⟨o, by rw [hsc]; exact ho, hid⟩
  · intro o ho tb hp sh hs2
    rw [hsc] at ho
    exact hsh o ho tb hp sh hs2

theorem inv_handleClear {s : EditorState} (h : Inv s) : Inv (handleClear s) := by
  obtain ⟨hi, _, hsh⟩ := h
  exact ⟨hi, fun i hi2 => by simp [handleClear] at hi2, hsh⟩

theorem setObj_id (e : StyleEdit) (i : ℕ) (o : Obj) :
    (setObj e i o).id = o.id := by
  unfold setObj
  split
  · obtain ⟨oid, fx, fy, pay⟩ := o
    cases pay <;> rfl
  · rfl

theorem inv_setOnSelected {e : StyleEdit} {s : EditorState}
    (hg : GoodEdit e) (h : Inv s) : Inv (setOnSelected e s) := by
  obtain ⟨hi, hsel, hsh⟩ := h
  unfold setOnSelected
  cases hs : s.selection with
  | none => exact ⟨hi, hsel, hsh⟩
  | some i =>
    refine ⟨?_, ?_, ?_⟩
    · intro o' ho'
      simp only [List.mem_map] at ho'
      obtain ⟨o, ho, rfl⟩ := ho'
      have := setObj_id e i o
      rw [this]
      exact hi o ho
    · intro j hj
      simp only [Option.some.injEq] at hj
      subst hj
      obtain ⟨o, ho, hid⟩ := hsel i hs
      refine ⟨_, List.mem_map_of_mem _ ho, ?_⟩
      rw [setObj_id e i o, hid]
    · intro o' ho' tb hp sh hsh2
      simp only [List.mem_map] at ho'
      obtain ⟨o, ho, rfl⟩ := ho'
      unfold setObj at hp
      by_cases hcase : o.id = i
      · simp only [hcase, if_true] at hp
        cases hpay : o.payload with
        | image d =>
          rw [hpay] at hp
          simp at hp
          rw [hpay] at hp
          cases hp
        | textbox tb0 =>
          rw [hpay] at hp
          simp only at hp
          injection hp with h2
          subst h2
          cases e with
          | setShadow v =>
            simp only [applyEdit] at hsh2
            subst hsh2
            simpa [GoodEdit] using hg
          | setText v => exact hsh o ho tb0 hpay sh (by simpa [applyEdit] using hsh2)
          | setFill v => exact hsh o ho tb0 hpay sh (by simpa [applyEdit] using hsh2)
          | setFontSize v => exact hsh o ho tb0 hpay sh (by simpa [applyEdit] using hsh2)
          | setFontFamily v => exact hsh o ho tb0 hpay sh (by simpa [applyEdit] using hsh2)
          | setFontWeight v => exact hsh o ho tb0 hpay sh (by simpa [applyEdit] using hsh2)
          | setFontStyle v => exact hsh o ho tb0 hpay sh (by simpa [applyEdit] using hsh2)
          | setUnderline v => exact hsh o ho tb0 hpay sh (by simpa [applyEdit] using hsh2)
          | setTextAlign v => exact hsh o ho tb0 hpay sh (by simpa [applyEdit] using hsh2)
          | setStroke v => exact hsh o ho tb0 hpay sh (by simpa [applyEdit] using hsh2)
          | setStrokeWidth v => exact hsh o ho tb0 hpay sh (by simpa [applyEdit] using hsh2)
          | setBackgroundColor v => exact hsh o ho tb0 hpay sh (by simpa [applyEdit] using hsh2)
      · simp only [hcase, if_false] at hp
        exact hsh o ho tb hp sh hsh2

theorem inv_mapPreserve (f : Obj → Obj) {s t : EditorState}
    (hid : ∀ o, (f o).id = o.id) (hpay : ∀ o, (f o).payload = o.payload)
    (hscene : t.scene = s.scene.map f) (hsel2 : t.selection = s.selection)
    (hnext : t.nextId = s.nextId) (h : Inv s) : Inv t := by
  obtain ⟨hi, hsel, hsh⟩ := h
  refine ⟨?_, ?_, ?_⟩
  · intro o' ho'
    rw [hscene] at ho'
    simp only [List.mem_map] at ho'
    obtain ⟨o, ho, rfl⟩ := ho'
    rw [hnext, hid]
    exact hi o ho
  · intro j hj
    rw [hsel2] at hj
    obtain ⟨o, ho, hoid⟩ := hsel j hj
    exact ⟨f o, by rw [hscene]; exact List.mem_map_of_mem f ho, by rw [hid, hoid]⟩
  · intro o' ho' tb hp sh hsh2
    rw [hscene] at ho'
    simp only [List.mem_map] at ho'
    obtain ⟨o, ho, rfl⟩ := ho'
    rw [hpay] at hp
    exact hsh o ho tb hp sh hsh2

theorem inv_flipHorizontal {s : EditorState} (h : Inv s) : Inv (flipHorizontal s) := by
  unfold flipHorizontal
  cases hs : s.selection with
  | none => exact h
  | some i =>
    exact inv_mapPreserve (fun o => if o.id = i then { o with flipX := !o.flipX } else o)
      (fun o => by by_cases hc : o.id = i <;> simp [hc])
      (fun o => by by_cases hc : o.id = i <;> simp [hc])
      rfl hs.symm rfl h

theorem inv_flipVertical {s : EditorState} (h : Inv s) : Inv (flipVertical s) := by
  unfold flipVertical
  cases hs : s.selection with
  | none => exact h
  | some i =>
    exact inv_mapPreserve (fun o => if o.id = i then { o with flipY := !o.flipY } else o)
      (fun o => by by_cases hc : o.id = i <;> simp [hc])
      (fun o => by by_cases hc : o.id = i <;> simp [hc])
      rfl hs.symm rfl h

theorem inv_bringFront {s : EditorState} (h : Inv s) : Inv (bringFront s) := by
  obtain ⟨hi, hsel, hsh⟩ := h
  unfold bringFront
  cases hs : s.selection with
  | none => exact ⟨hi, hsel, hsh⟩
  | some i =>
    have hmem : ∀ o ∈ s.scene.filter (fun o => o.id ≠ i) ++
        s.scene.filter (fun o => o.id = i), o ∈ s.scene := by
      intro o ho
      rcases List.mem_append.mp ho with ho | ho <;> exact List.mem_of_mem_filter ho
    refine ⟨fun o ho => hi o (hmem o ho), ?_,
      fun o ho tb hp sh h2 => hsh o (hmem o ho) tb hp sh h2⟩
    intro j hj
    have hj2 : some i = some j := hj
    injection hj2 with hji
    subst hji
    obtain ⟨o, ho, hoid⟩ := hsel _ hs
    refine ⟨o, List.mem_append.mpr (Or.inr ?_), hoid⟩
    exact List.mem_filter.mpr ⟨ho, by simp [hoid]⟩

theorem inv_sendBack {s : EditorState} (h : Inv s) : Inv (sendBack s) := by
  obtain ⟨hi, hsel, hsh⟩ := h
  unfold sendBack
  cases hs : s.selection with
  | none => exact ⟨hi, hsel, hsh⟩
  | some i =>
    have hmem : ∀ o ∈ s.scene.filter (fun o => o.id = i) ++
        s.scene.filter (fun o => o.id ≠ i), o ∈ s.scene := by
      intro o ho
      rcases List.mem_append.mp ho with ho | ho <;> exact List.mem_of_mem_filter ho
    refine ⟨fun o ho => hi o (hmem o ho), ?_,
      fun o ho tb hp sh h2 => hsh o (hmem o ho) tb hp sh h2⟩
    intro j hj
    have hj2 : some i = some j := hj
    injection hj2 with hji
    subst hji
    obtain ⟨o, ho, hoid⟩ := hsel _ hs
    refine ⟨o, List.mem_append.mpr (Or.inl ?_), hoid⟩
    exact List.mem_filter.mpr ⟨ho, by simp [hoid]⟩

theorem inv_applyUi (e : UiEdit) {s : EditorState} (h : Inv s) : Inv (applyUi e s) := by
  have hform : ∀ (f : StyleForm), Inv { s with form := f } := by
    intro f
    obtain ⟨hi, hsel, hsh⟩ := h
    exact ⟨hi, hsel, hsh⟩
  cases e with
  | editText v => exact inv_setOnSelected trivial h
  | toggleBold => exact inv_setOnSelected trivial (hform _)
  | toggleItalic => exact inv_setOnSelected trivial (hform _)
  | toggleUnderline => exact inv_setOnSelected trivial (hform _)
  | fontColor v => exact inv_setOnSelected trivial (hform _)
  | strokeColor v => exact inv_setOnSelected trivial (hform _)
  | strokeWidth v => exact inv_setOnSelected trivial (hform _)
  | shadowBlur v =>
    refine inv_setOnSelected ?_ (hform _)
    by_cases hv : v = 0 <;> simp [GoodEdit, hv]
  | shadowColor v =>
    refine inv_setOnSelected ?_ (hform _)
    by_cases hb : s.form.shadowBlur = 0 <;> simp [GoodEdit, hb]
  | bgColor v => exact inv_setOnSelected trivial (hform _)
  | bgOpacity v => exact inv_setOnSelected trivial (hform _)
  | fontSize v => exact inv_setOnSelected trivial (hform _)
  | textAlign v => exact inv_setOnSelected trivial (hform _)

theorem inv_initialState : Inv initialState :=
  ⟨fun o ho => by simp [initialState] at ho,
   fun i hi => by simp [initialState] at hi,
   fun o ho => by simp [initialState] at ho⟩

/-- Every reachable editor state satisfies the session invariant. -/
theorem reachable_inv {s : EditorState} (h : Reachable s) : Inv s := by
  induction h with
  | init => exact inv_initialState
  | step hr hst ih =>
    cases hst with
    | load c s => exact inv_loadContent _ _
    | page k o c s => exact inv_loadContent _ _
    | decode k s => exact inv_decodeComplete k ih
    | addText s => exact inv_handleAddText ih
    | upload s => exact inv_uploadComplete ih
    | delete s => exact inv_handleDelete ih
    | select i s => exact inv_handleSelect i ih
    | clear s => exact inv_handleClear ih
    | ui e s => exact inv_applyUi e ih
    | flipH s => exact inv_flipHorizontal ih
    | flipV s => exact inv_flipVertical ih
    | front s => exact inv_bringFront ih
    | back s => exact inv_sendBack ih

end Poster

namespace Poster

/-- C6: for every supported paper size key the page geometry resolver returns
exactly the base (width, height) pair of the fixed table in portrait and the
swapped pair in landscape. -/
theorem C6_page_geometry_resolver :
    (∀ k : PaperKey,
      getCanvasDimensions k .portrait = baseSizes k ∧
      getCanvasDimensions k .landscape =
        ((baseSizes k).2, (baseSizes k).1)) ∧
    baseSizes .letter = (816, 1056) ∧
    baseSizes .a4 = (794, 1123) ∧
    baseSizes .a5 = (559, 794) ∧
    baseSizes .a6 = (397, 559) ∧
    baseSizes .postcard = (400, 600) := by
  refine ⟨fun k => ⟨?_, ?_⟩, rfl, rfl, rfl, rfl, rfl⟩ <;> cases k <;> rfl

/-- C5 (amended): the viewport scaler always computes and applies
`scaleFactor = min(cw/pw, ch/ph)` — including for a zero-sized container,
where the scale is 0 and is still written to ViewportState — and whenever
the container has positive width and height the scale is positive and the
page rendered at that scale fits in the container in both dimensions. -/
theorem C5_viewport_scale :
    ∀ (cw ch w h : ℚ) (v : ViewportState),
      (resizeUpdate cw ch w h v).zoom = min (cw / w) (ch / h) ∧
      (0 < cw → 0 < ch → 0 < w → 0 < h →
        0 < (resizeUpdate cw ch w h v).zoom ∧
        w * (resizeUpdate cw ch w h v).zoom ≤ cw ∧
        h * (resizeUpdate cw ch w h v).zoom ≤ ch) := by
  intro cw ch w h v
  refine ⟨rfl, fun hcw hch hw hh => ⟨?_, ?_, ?_⟩⟩
  · exact lt_min (div_pos hcw hw) (div_pos hch hh)
  · calc w * (resizeUpdate cw ch w h v).zoom ≤ w * (cw / w) :=
        mul_le_mul_of_nonneg_left (min_le_left _ _) hw.le
      _ = cw := by field_simp
  · calc h * (resizeUpdate cw ch w h v).zoom ≤ h * (ch / h) :=
        mul_le_mul_of_nonneg_left (min_le_right _ _) hh.le
      _ = ch := by field_simp

/-- Witness for C5 at a concrete container and page. -/
theorem C5_viewport_scale_witness :
    0 < (resizeUpdate 500 500 794 1123 ⟨1⟩).zoom ∧
    794 * (resizeUpdate 500 500 794 1123 ⟨1⟩).zoom ≤ 500 ∧
    1123 * (resizeUpdate 500 500 794 1123 ⟨1⟩).zoom ≤ 500 :=
  (C5_viewport_scale 500 500 794 1123 ⟨1⟩).2
    (by norm_num) (by norm_num) (by norm_num) (by norm_num)

/-- C5 counterexample: with a zero-width container the source computes
scale 0 and still applies it — the update is not deferred, and the written
scale is not positive, contradicting the claim. -/
theorem C5_zero_container_cex :
    resizeUpdate 0 500 794 1123 ⟨1⟩ = ⟨0⟩ ∧
    resizeUpdate 0 500 794 1123 ⟨1⟩ ≠ ⟨1⟩ ∧ ¬ (0 : ℚ) < 0 := by
  have h0 : min ((0 : ℚ) / 794) (500 / 1123) = 0 := by
    rw [zero_div]
    exact min_eq_left (by positivity)
  refine ⟨?_, ?_, lt_irrefl 0⟩
  · unfold resizeUpdate
    rw [h0]
  · unfold resizeUpdate
    rw [h0]
    intro hcontra
    injection hcontra with hz
    norm_num at hz

/-- C1 (amended): when the supplied base image's aspect ratio is strictly
wider than the page's, `importContent` scales it by `pageWidth/imageWidth`
(width-constrained): the scaled image is then strictly shorter than the
page, so it does not fully cover it; it is centered at
(pageWidth/2, pageHeight/2) and inserted at the back of the z-order. -/
theorem C1_wide_image_contain_scale :
    ∀ iw ih w h : ℚ, 0 < iw → 0 < ih → 0 < h →
      iw / ih > w / h →
      coverScale iw ih w h = w / iw ∧
      ih * coverScale iw ih w h < h ∧
      (∀ (k : ℕ) (s : EditorState), s.pending.get? k = some ⟨iw, ih, w, h⟩ →
        (decodeComplete k s).scene =
          (⟨s.nextId, false, false,
            .image ⟨w / 2, h / 2, coverScale iw ih w h, coverScale iw ih w h⟩⟩ : Obj) ::
            s.scene) := by
  intro iw ih w h hiw hih hh hwide
  have hsc : coverScale iw ih w h = w / iw := by
    unfold coverScale
    rw [if_pos hwide]
  refine ⟨hsc, ?_, ?_⟩
  · rw [hsc, mul_div_assoc', div_lt_iff hiw]
    rw [gt_iff_lt, div_lt_div_iff hh hih] at hwide
    linarith [mul_comm ih w, mul_comm h iw, hwide]
  · intro k s hk
    unfold decodeComplete
    rw [hk]

/-- Witness for C1 on a 200×100 image and the A4-portrait page. -/
theorem C1_wide_image_witness :
    coverScale 200 100 794 1123 = 794 / 200 ∧
    (100 : ℚ) * coverScale 200 100 794 1123 < 1123 ∧
    (decodeComplete 0 { initialState with pending := [⟨200, 100, 794, 1123⟩] }).scene =
      [⟨0, false, false, .image ⟨794 / 2, 1123 / 2, coverScale 200 100 794 1123,
        coverScale 200 100 794 1123⟩⟩] := by
  have h := C1_wide_image_contain_scale 200 100 794 1123 (by norm_num) (by norm_num)
    (by norm_num) (by norm_num)
  exact ⟨h.1, h.2.1, h.2.2 0 _ rfl⟩

/-- C1 counterexample: a 200×100 image on the 794×1123 page is wider than
the page, yet the computed scale is `794/200 = pageWidth/imageWidth`, not
the claimed `1123/100 = pageHeight/imageHeight`, and at that scale the
image's height (100 × scale = 397) does not cover the page height 1123. -/
theorem C1_wide_image_cex :
    coverScale 200 100 794 1123 = 794 / 200 ∧
    coverScale 200 100 794 1123 ≠ 1123 / 100 ∧
    (100 : ℚ) * coverScale 200 100 794 1123 < 1123 := by
  have hsc : coverScale 200 100 794 1123 = 794 / 200 := by
    unfold coverScale
    rw [if_pos (by norm_num)]
  refine ⟨hsc, ?_, ?_⟩ <;> rw [hsc] <;> norm_num

/-- C2 (amended): each caption TextBox is positioned at
`((hint.x/100)·pageWidth, (hint.y/100)·pageHeight)` when `layoutHints`
supplies all three fields, and at the fixed default percentage triple
(10,15), (10,25), (10,35) when `layoutHints` is wholly absent; but when
`layoutHints` is present and incomplete — whichever of the three fields is
missing — the import fails at that field (a TypeError reading `pos.x` of
`undefined`) instead of falling back to the defaults: only the fields
processed before the missing one are placed, the missing field never. -/
theorem C2_caption_placement :
    ∀ (caps : Captions) (w h : ℚ),
      (∀ (l : LayoutJson) (p1 p2 p3 : Hint),
        l.headline = some p1 → l.tagline = some p2 → l.cta_text = some p3 →
        (importCaptions caps (some l) w h).2 = none ∧
        ((importCaptions caps (some l) w h).1.map fun tb => (tb.left, tb.top)) =
          [(p1.x / 100 * w, p1.y / 100 * h), (p2.x / 100 * w, p2.y / 100 * h),
           (p3.x / 100 * w, p3.y / 100 * h)]) ∧
      ((importCaptions caps none w h).2 = none ∧
        ((importCaptions caps none w h).1.map fun tb => (tb.left, tb.top)) =
          [(10 / 100 * w, 15 / 100 * h), (10 / 100 * w, 25 / 100 * h),
           (10 / 100 * w, 35 / 100 * h)]) ∧
      (∀ l : LayoutJson, l.headline = none →
        (importCaptions caps (some l) w h).1 = [] ∧
        (importCaptions caps (some l) w h).2 =
          some "TypeError: cannot read x of undefined") ∧
      (∀ (l : LayoutJson) (p1 : Hint), l.headline = some p1 → l.tagline = none →
        ((importCaptions caps (some l) w h).1.map fun tb => (tb.left, tb.top)) =
          [(p1.x / 100 * w, p1.y / 100 * h)] ∧
        (importCaptions caps (some l) w h).2 =
          some "TypeError: cannot read x of undefined") ∧
      (∀ (l : LayoutJson) (p1 p2 : Hint), l.headline = some p1 →
        l.tagline = some p2 → l.cta_text = none →
        ((importCaptions caps (some l) w h).1.map fun tb => (tb.left, tb.top)) =
          [(p1.x / 100 * w, p1.y / 100 * h), (p2.x / 100 * w, p2.y / 100 * h)] ∧
        (importCaptions caps (some l) w h).2 =
          some "TypeError: cannot read x of undefined") := by
  intro caps w h
  refine ⟨?_, ?_, ?_, ?_, ?_⟩
  · intro l p1 p2 p3 h1 h2 h3
    simp [importCaptions, resolvedLayout, h1, h2, h3, headlineTb, taglineTb, ctaTb,
      baseCaption]
  · simp [importCaptions, resolvedLayout, headlineTb, taglineTb, ctaTb, baseCaption]
  · intro l h1
    simp [importCaptions, resolvedLayout, h1]
  · intro l p1 h1 h2
    simp [importCaptions, resolvedLayout, h1, h2, headlineTb, baseCaption]
  · intro l p1 p2 h1 h2 h3
    simp [importCaptions, resolvedLayout, h1, h2, h3, headlineTb, taglineTb, baseCaption]

/-- Witness for C2: complete hints on the A4-portrait page, and a layout
missing only the tagline, where the import errors instead of defaulting. -/
theorem C2_caption_placement_witness :
    (((importCaptions ⟨"H", "T", "C"⟩
        (some ⟨some ⟨20, 30⟩, some ⟨40, 50⟩, some ⟨60, 70⟩⟩) 794 1123).1.map
      fun tb => (tb.left, tb.top)) =
      [(20 / 100 * 794, 30 / 100 * 1123), (40 / 100 * 794, 50 / 100 * 1123),
       (60 / 100 * 794, 70 / 100 * 1123)]) ∧
    (importCaptions ⟨"H", "T", "C"⟩
        (some ⟨some ⟨20, 30⟩, none, some ⟨60, 70⟩⟩) 794 1123).2 =
      some "TypeError: cannot read x of undefined" :=
  ⟨((C2_caption_placement ⟨"H", "T", "C"⟩ 794 1123).1
      ⟨some ⟨20, 30⟩, some ⟨40, 50⟩, some ⟨60, 70⟩⟩
      ⟨20, 30⟩ ⟨40, 50⟩ ⟨60, 70⟩ rfl rfl rfl).2,
   ((C2_caption_placement ⟨"H", "T", "C"⟩ 794 1123).2.2.2.1
      ⟨some ⟨20, 30⟩, none, some ⟨60, 70⟩⟩ ⟨20, 30⟩ rfl rfl).2⟩

/-- C2 counterexample: a present `layout_json` that lacks the `headline`
key places no caption at all (the import throws), so the headline TextBox
is not at the default position the claim requires. -/
theorem C2_incomplete_hints_cex :
    (importCaptions ⟨"H", "T", "C"⟩
      (some ⟨none, some ⟨10, 25⟩, some ⟨10, 35⟩⟩) 794 1123).1 = [] ∧
    (importCaptions ⟨"H", "T", "C"⟩
      (some ⟨none, some ⟨10, 25⟩, some ⟨10, 35⟩⟩) 794 1123).2.isSome = true :=
  ⟨rfl, rfl⟩

theorem setOnSelected_some {s : EditorState} {i : ℕ} (e : StyleEdit)
    (hs : s.selection = some i) :
    setOnSelected e s = { s with scene := s.scene.map (setObj e i) } := by
  unfold setOnSelected
  rw [hs]

theorem setOnSelected_form (e : StyleEdit) (s : EditorState) :
    (setOnSelected e s).form = s.form := by
  unfold setOnSelected
  cases s.selection <;> rfl

theorem setOnSelected_mem (e : StyleEdit) {s : EditorState} {i oid : ℕ}
    {fx fy : Bool} {tb : TbData}
    (hs : s.selection = some i) (ho : (⟨oid, fx, fy, .textbox tb⟩ : Obj) ∈ s.scene)
    (hid : oid = i) :
    (⟨oid, fx, fy, .textbox (applyEdit e tb)⟩ : Obj) ∈ (setOnSelected e s).scene := by
  rw [setOnSelected_some e hs]
  have heq : (⟨oid, fx, fy, .textbox (applyEdit e tb)⟩ : Obj) =
      setObj e i ⟨oid, fx, fy, .textbox tb⟩ := by
    simp [setObj, hid]
  rw [heq]
  exact List.mem_map_of_mem _ ho

/-- C7: `handleDelete` is a no-op when nothing is selected; on every
reachable state a selected id refers to an object present in the scene
(so "selected but absent" cannot arise); when an object is selected,
delete removes exactly the objects with its identity and clears the
selection; and `addText` immediately followed by delete restores the
scene length and leaves no selection. -/
theorem C7_delete_behavior :
    ∀ s : EditorState, Reachable s →
      (s.selection = none → handleDelete s = s) ∧
      (∀ i, s.selection = some i → ∃ o ∈ s.scene, o.id = i) ∧
      (∀ i, s.selection = some i →
        (handleDelete s).scene = s.scene.filter (fun o => o.id ≠ i) ∧
        (handleDelete s).selection = none) ∧
      ((handleDelete (handleAddText s)).scene.length = s.scene.length ∧
        (handleDelete (handleAddText s)).selection = none) := by
  intro s hr
  obtain ⟨hids, hsel, -⟩ := reachable_inv hr
  have hfil : (s.scene ++
      [(⟨s.nextId, false, false, .textbox (newTextbox s.form)⟩ : Obj)]).filter
        (fun o => o.id ≠ s.nextId) = s.scene := by
    rw [List.filter_append]
    have h1 : s.scene.filter (fun o => o.id ≠ s.nextId) = s.scene := by
      refine List.filter_eq_self.mpr fun o ho => ?_
      simp only [ne_eq, decide_eq_true_eq, decide_not]
      have := hids o ho
      simp only [Bool.not_eq_true', decide_eq_false_iff_not]
      omega
    have h2 : ([(⟨s.nextId, false, false, .textbox (newTextbox s.form)⟩ : Obj)]).filter
        (fun o => o.id ≠ s.nextId) = [] := by simp
    rw [h1, h2, List.append_nil]
  refine ⟨?_, hsel, ?_, ?_, rfl⟩
  · intro hnone
    unfold handleDelete
    rw [hnone]
  · intro i hi
    unfold handleDelete
    rw [hi]
    exact ⟨rfl, rfl⟩
  · have hd : (handleDelete (handleAddText s)).scene =
        (s.scene ++
          [(⟨s.nextId, false, false, .textbox (newTextbox s.form)⟩ : Obj)]).filter
            (fun o => o.id ≠ s.nextId) := rfl
    rw [hd, hfil]

/-- Witness for C7 at the initial state. -/
theorem C7_delete_behavior_witness :
    (handleDelete (handleAddText initialState)).scene.length =
      initialState.scene.length ∧
    (handleDelete (handleAddText initialState)).selection = none :=
  (C7_delete_behavior initialState Reachable.init).2.2.2

/-- C9: `flipHorizontal` toggles the selected object's `flipX` flag (and
`flipVertical` its `flipY` flag) leaving every other object unchanged, and
applying the same flip twice restores every state exactly. -/
theorem C9_flip_involution :
    (∀ s : EditorState, flipHorizontal (flipHorizontal s) = s ∧
      flipVertical (flipVertical s) = s) ∧
    (∀ (s : EditorState) (i : ℕ) (o : Obj), s.selection = some i → o ∈ s.scene →
      o.id = i →
      ({ o with flipX := !o.flipX } : Obj) ∈ (flipHorizontal s).scene ∧
      ({ o with flipY := !o.flipY } : Obj) ∈ (flipVertical s).scene) ∧
    (∀ (s : EditorState) (i : ℕ) (o : Obj), s.selection = some i → o ∈ s.scene →
      o.id ≠ i → o ∈ (flipHorizontal s).scene ∧ o ∈ (flipVertical s).scene) := by
  have hHnone : ∀ s : EditorState, s.selection = none → flipHorizontal s = s := by
    intro s hs
    unfold flipHorizontal
    rw [hs]
  have hVnone : ∀ s : EditorState, s.selection = none → flipVertical s = s := by
    intro s hs
    unfold flipVertical
    rw [hs]
  have hHsome : ∀ (s : EditorState) (i : ℕ), s.selection = some i →
      flipHorizontal s = { s with scene :=
        (s.scene.map (fun o => if o.id = i then { o with flipX := !o.flipX } else o)) } := by
    intro s i hs
    unfold flipHorizontal
    rw [hs]
  have hVsome : ∀ (s : EditorState) (i : ℕ), s.selection = some i →
      flipVertical s = { s with scene :=
        (s.scene.map (fun o => if o.id = i then { o with flipY := !o.flipY } else o)) } := by
    intro s i hs
    unfold flipVertical
    rw [hs]
  have hHcomp : ∀ i : ℕ,
      ((fun o : Obj => if o.id = i then { o with flipX := !o.flipX } else o) ∘
       (fun o : Obj => if o.id = i then { o with flipX := !o.flipX } else o)) = id := by
    intro i
    funext o
    obtain ⟨oid, fx, fy, pay⟩ := o
    by_cases hc : oid = i <;> simp [Function.comp, hc]
  have hVcomp : ∀ i : ℕ,
      ((fun o : Obj => if o.id = i then { o with flipY := !o.flipY } else o) ∘
       (fun o : Obj => if o.id = i then { o with flipY := !o.flipY } else o)) = id := by
    intro i
    funext o
    obtain ⟨oid, fx, fy, pay⟩ := o
    by_cases hc : oid = i <;> simp [Function.comp, hc]
  refine ⟨?_, ?_, ?_⟩
  · intro s
    constructor
    · cases hs : s.selection with
      | none => rw [hHnone s hs, hHnone s hs]
      | some i =>
        have hs2 : ({ s with scene :=
            (s.scene.map (fun o => if o.id = i then { o with flipX := !o.flipX } else o)) } :
              EditorState).selection = some i := hs
        rw [hHsome s i hs, hHsome _ i hs2, List.map_map, hHcomp, List.map_id]
    · cases hs : s.selection with
      | none => rw [hVnone s hs, hVnone s hs]
      | some i =>
        have hs2 : ({ s with scene :=
            (s.scene.map (fun o => if o.id = i then { o with flipY := !o.flipY } else o)) } :
              EditorState).selection = some i := hs
        rw [hVsome s i hs, hVsome _ i hs2, List.map_map, hVcomp, List.map_id]
  · intro s i o hs ho hid
    constructor
    · rw [hHsome s i hs]
      have heq : ({ o with flipX := !o.flipX } : Obj) =
          (fun o : Obj => if o.id = i then { o with flipX := !o.flipX } else o) o := by
        simp [hid]
      rw [heq]
      exact List.mem_map_of_mem _ ho
    · rw [hVsome s i hs]
      have heq : ({ o with flipY := !o.flipY } : Obj) =
          (fun o : Obj => if o.id = i then { o with flipY := !o.flipY } else o) o := by
        simp [hid]
      rw [heq]
      exact List.mem_map_of_mem _ ho
  · intro s i o hs ho hid
    constructor
    · rw [hHsome s i hs]
      have heq : o = (fun o : Obj =>
          if o.id = i then { o with flipX := !o.flipX } else o) o := by
        simp [hid]
      rw [heq]
      exact List.mem_map_of_mem _ ho
    · rw [hVsome s i hs]
      have heq : o = (fun o : Obj =>
          if o.id = i then { o with flipY := !o.flipY } else o) o := by
        simp [hid]
      rw [heq]
      exact List.mem_map_of_mem _ ho

/-- Witness for C9: a double flip at a state with a selected textbox, and
the toggle itself on that textbox. -/
theorem C9_flip_involution_witness :
    flipHorizontal (flipHorizontal (handleAddText initialState)) =
      handleAddText initialState ∧
    (⟨0, !false, false, .textbox (newTextbox initialForm)⟩ : Obj) ∈
      (flipHorizontal (handleAddText initialState)).scene :=
  ⟨(C9_flip_involution.1 (handleAddText initialState)).1,
   (C9_flip_involution.2.1 (handleAddText initialState) 0
     ⟨0, false, false, .textbox (newTextbox initialForm)⟩ rfl
     (by simp [handleAddText, initialState]) rfl).1⟩

/-- C10: on every reachable state, every textbox's shadow, when present,
has nonzero blur; `addText` attaches a shadow exactly when the current
form blur is nonzero; and setting the shadow-blur control to 0 replaces
the selected textbox's shadow by none (removes it). -/
theorem C10_shadow_iff_blur :
    (∀ s : EditorState, Reachable s → ShadowOk s) ∧
    (∀ f : StyleForm, (newTextbox f).shadow =
      if f.shadowBlur ≠ 0 then some ⟨f.shadowColor, f.shadowBlur⟩ else none) ∧
    (∀ (s : EditorState) (i oid : ℕ) (fx fy : Bool) (tb : TbData),
      s.selection = some i → (⟨oid, fx, fy, .textbox tb⟩ : Obj) ∈ s.scene →
      oid = i →
      (⟨oid, fx, fy, .textbox { tb with shadow := none }⟩ : Obj) ∈
        (applyUi (.shadowBlur 0) s).scene) := by
  refine ⟨fun s hr => (reachable_inv hr).2.2, fun f => rfl, ?_⟩
  intro s i oid fx fy tb hs ho hid
  exact setOnSelected_mem (.setShadow none) hs ho hid

/-- Witness for C10: the invariant at the initial state, and the addText
shadow rule instantiated at the initial form (blur 0, no shadow). -/
theorem C10_shadow_iff_blur_witness :
    ShadowOk initialState ∧ (newTextbox initialForm).shadow = none :=
  ⟨C10_shadow_iff_blur.1 initialState Reachable.init,
   by rw [C10_shadow_iff_blur.2.1 initialForm]; simp [initialForm]⟩

/-- C8: `setStyle` on a selected textbox writes exactly the named
attribute and leaves every other attribute of that textbox, every other
scene object, the scene's id order, the selection and the form unchanged;
on a selected image it leaves the whole state unchanged. -/
theorem C8_setStyle_frame :
    ∀ (e : StyleEdit) (s : EditorState) (i : ℕ), s.selection = some i →
      (∀ (oid : ℕ) (fx fy : Bool) (tb : TbData),
        (⟨oid, fx, fy, .textbox tb⟩ : Obj) ∈ s.scene → oid = i →
        (⟨oid, fx, fy, .textbox (applyEdit e tb)⟩ : Obj) ∈ (setOnSelected e s).scene) ∧
      (∀ tb : TbData, getF (editField e) (applyEdit e tb) = editValue e) ∧
      (∀ (tb : TbData) (fld : StyleField), fld ≠ editField e →
        getF fld (applyEdit e tb) = getF fld tb) ∧
      (∀ o ∈ s.scene, o.id ≠ i → o ∈ (setOnSelected e s).scene) ∧
      ((setOnSelected e s).scene.map Obj.id = s.scene.map Obj.id) ∧
      (setOnSelected e s).selection = s.selection ∧
      (setOnSelected e s).form = s.form ∧
      ((∀ o ∈ s.scene, o.id = i → ∃ d, o.payload = Payload.image d) →
        setOnSelected e s = s) := by
  intro e s i hs
  refine ⟨?_, ?_, ?_, ?_, ?_, ?_, ?_, ?_⟩
  · intro oid fx fy tb ho hid
    exact setOnSelected_mem e hs ho hid
  · intro tb
    cases e <;> rfl
  · intro tb fld hne
    cases e <;> cases fld <;> first | rfl | exact absurd rfl hne
  · intro o ho hne
    rw [setOnSelected_some e hs]
    have heq : setObj e i o = o := by
      unfold setObj
      rw [if_neg hne]
    have hmem := List.mem_map_of_mem (setObj e i) ho
    rwa [heq] at hmem
  · rw [setOnSelected_some e hs]
    show (s.scene.map (setObj e i)).map Obj.id = s.scene.map Obj.id
    rw [List.map_map]
    exact List.map_congr_left fun o _ => setObj_id e i o
  · rw [setOnSelected_some e hs, hs]
  · rw [setOnSelected_some e hs]
  · intro himg
    rw [setOnSelected_some e hs]
    have hmapid : ∀ o ∈ s.scene, setObj e i o = o := by
      intro o ho
      unfold setObj
      by_cases hc : o.id = i
      · obtain ⟨d, hd⟩ := himg o ho hc
        obtain ⟨oid, fx, fy, pay⟩ := o
        simp only at hd
        subst hd
        simp [hc]
      · rw [if_neg hc]
    have hmap : s.scene.map (setObj e i) = s.scene :=
      (List.map_congr_left hmapid).trans (List.map_id s.scene)
    rw [hmap]

/-- Witness for C8: setting fontSize 40 on the freshly added, selected
textbox leaves selection and form untouched. -/
theorem C8_setStyle_frame_witness :
    (⟨0, false, false,
      .textbox (applyEdit (.setFontSize 40) (newTextbox initialForm))⟩ : Obj) ∈
      (setOnSelected (.setFontSize 40) (handleAddText initialState)).scene ∧
    (setOnSelected (.setFontSize 40) (handleAddText initialState)).selection =
      (handleAddText initialState).selection ∧
    (setOnSelected (.setFontSize 40) (handleAddText initialState)).form =
      (handleAddText initialState).form := by
  have h := C8_setStyle_frame (.setFontSize 40) (handleAddText initialState) 0 rfl
  exact ⟨h.1 0 false false (newTextbox initialForm)
      (by simp [handleAddText, initialState]) rfl,
    h.2.2.2.2.2.1, h.2.2.2.2.2.2.1⟩

/-- C3 (amended): on selecting a textbox, exactly the seven fields font
color, size, family, alignment, weight, style and underline of the form
are re-synchronized from the object (each through the source's
`||`-default); the stroke, shadow and background form fields keep their
previous values, so they may diverge from the selected object; and while a
textbox stays selected, every sidebar edit is immediately pushed onto it,
keeping the edited field of form and object in agreement. -/
theorem C3_selection_sync :
    (∀ (tb : TbData) (f : StyleForm),
      (syncForm tb f).fontColor = tb.fill ∧
      (syncForm tb f).fontSize = (if tb.fontSize ≠ 0 then tb.fontSize else 24) ∧
      (syncForm tb f).fontFamily =
        (if tb.fontFamily ≠ "" then tb.fontFamily else "Helvetica") ∧
      (syncForm tb f).textAlign = (if tb.textAlign ≠ "" then tb.textAlign else "left") ∧
      (syncForm tb f).fontWeight =
        (if tb.fontWeight ≠ "" then tb.fontWeight else "normal") ∧
      (syncForm tb f).fontStyle =
        (if tb.fontStyle ≠ "" then tb.fontStyle else "normal") ∧
      (syncForm tb f).underline = tb.underline ∧
      (syncForm tb f).strokeColor = f.strokeColor ∧
      (syncForm tb f).strokeWidth = f.strokeWidth ∧
      (syncForm tb f).shadowColor = f.shadowColor ∧
      (syncForm tb f).shadowBlur = f.shadowBlur ∧
      (syncForm tb f).bgColor = f.bgColor ∧
      (syncForm tb f).bgOpacity = f.bgOpacity) ∧
    (∀ (s : EditorState) (i oid : ℕ) (fx fy : Bool) (tb : TbData),
      s.scene.find? (fun o => o.id == i) = some ⟨oid, fx, fy, .textbox tb⟩ →
      handleSelect i s = { s with selection := some i, form := syncForm tb s.form }) ∧
    (∀ (e : UiEdit) (s : EditorState) (i oid : ℕ) (fx fy : Bool) (tb : TbData),
      s.selection = some i → (⟨oid, fx, fy, .textbox tb⟩ : Obj) ∈ s.scene → oid = i →
      ∃ tb' : TbData, (⟨oid, fx, fy, .textbox tb'⟩ : Obj) ∈ (applyUi e s).scene ∧
        uiAgrees e (applyUi e s).form tb') := by
  refine ⟨?_, ?_, ?_⟩
  · intro tb f
    exact ⟨rfl, rfl, rfl, rfl, rfl, rfl, rfl, rfl, rfl, rfl, rfl, rfl, rfl⟩
  · intro s i oid fx fy tb hf
    unfold handleSelect
    rw [hf]
  · intro e s i oid fx fy tb hs ho hid
    cases e with
    | editText v =>
      exact ⟨_, setOnSelected_mem _ hs ho hid, by simp only [applyUi]; rw [setOnSelected_form]; exact rfl⟩
    | toggleBold =>
      exact ⟨_, setOnSelected_mem _ hs ho hid, by simp only [applyUi]; rw [setOnSelected_form]; exact rfl⟩
    | toggleItalic =>
      exact ⟨_, setOnSelected_mem _ hs ho hid, by simp only [applyUi]; rw [setOnSelected_form]; exact rfl⟩
    | toggleUnderline =>
      exact ⟨_, setOnSelected_mem _ hs ho hid, by simp only [applyUi]; rw [setOnSelected_form]; exact rfl⟩
    | fontColor v =>
      exact ⟨_, setOnSelected_mem _ hs ho hid,
        by simp only [applyUi]; rw [setOnSelected_form]; exact ⟨rfl, rfl⟩⟩
    | strokeColor v =>
      exact ⟨_, setOnSelected_mem _ hs ho hid,
        by simp only [applyUi]; rw [setOnSelected_form]; exact ⟨rfl, rfl⟩⟩
    | strokeWidth v =>
      exact ⟨_, setOnSelected_mem _ hs ho hid,
        by simp only [applyUi]; rw [setOnSelected_form]; exact ⟨rfl, rfl⟩⟩
    | shadowBlur v =>
      exact ⟨_, setOnSelected_mem _ hs ho hid,
        by simp only [applyUi]; rw [setOnSelected_form]; exact ⟨rfl, rfl⟩⟩
    | shadowColor v =>
      exact ⟨_, setOnSelected_mem _ hs ho hid,
        by simp only [applyUi]; rw [setOnSelected_form]; exact ⟨rfl, rfl⟩⟩
    | bgColor v =>
      exact ⟨_, setOnSelected_mem _ hs ho hid,
        by simp only [applyUi]; rw [setOnSelected_form]; exact ⟨rfl, rfl⟩⟩
    | bgOpacity v =>
      exact ⟨_, setOnSelected_mem _ hs ho hid,
        by simp only [applyUi]; rw [setOnSelected_form]; exact ⟨rfl, rfl⟩⟩
    | fontSize v =>
      exact ⟨_, setOnSelected_mem _ hs ho hid,
        by simp only [applyUi]; rw [setOnSelected_form]; exact ⟨rfl, rfl⟩⟩
    | textAlign v =>
      exact ⟨_, setOnSelected_mem _ hs ho hid,
        by simp only [applyUi]; rw [setOnSelected_form]; exact ⟨rfl, rfl⟩⟩

/-- Witness for C3: selecting the lone textbox of a one-object scene, and
one pushed edit. -/
theorem C3_selection_sync_witness :
    handleSelect 0 (handleAddText initialState) =
      { (handleAddText initialState) with
          selection := some 0,
          form := syncForm (newTextbox initialForm) (handleAddText initialState).form } ∧
    ∃ tb' : TbData, (⟨0, false, false, .textbox tb'⟩ : Obj) ∈
        (applyUi (.fontSize 40) (handleAddText initialState)).scene ∧
      uiAgrees (.fontSize 40) (applyUi (.fontSize 40) (handleAddText initialState)).form tb' :=
  ⟨C3_selection_sync.2.1 (handleAddText initialState) 0 0 false false
      (newTextbox initialForm) rfl,
   C3_selection_sync.2.2 (.fontSize 40) (handleAddText initialState) 0 0 false false
      (newTextbox initialForm) rfl (by simp [handleAddText, initialState]) rfl⟩

/-- C3 counterexample: after restyling two textboxes' strokes and
re-selecting the first, the form's stroke color reads "#00ff00" while the
selected textbox's stroke is "#ff0000" — the form and the selected object
diverge while in the Selected state. -/
theorem C3_sync_divergence_cex :
    divergeState.selection = some 0 ∧
    (divergeState.scene.head?.map fun o => (o.id, strokeOf o)) =
      some (0, some "#ff0000") ∧
    divergeState.form.strokeColor = "#00ff00" ∧
    ("#ff0000" : String) ≠ "#00ff00" := by
  refine ⟨rfl, rfl, rfl, by decide⟩

/-- C4 is violated by the source: there is no staleness check, so the
decode completion of a superseded import is applied to the rebuilt scene.
After importing content with an image on the A4-portrait page, switching
the poster size to Postcard (which rebuilds the scene and re-imports), the
late completion of the first import inserts an image centered at
(397, 561.5) — the center of the old 794×1123 page — into the scene of the
current 400×600 page. The final state is reachable. -/
theorem C4_stale_decode_applied :
    Reachable raceFinal ∧
    raceFinal.scene.head? = some ⟨6, false, false,
      .image ⟨794 / 2, 1123 / 2, coverScale 1000 500 794 1123,
        coverScale 1000 500 794 1123⟩⟩ ∧
    coverScale 1000 500 794 1123 = 794 / 1000 ∧
    getCanvasDimensions raceFinal.posterSize raceFinal.orient = (400, 600) ∧
    (794 : ℚ) / 2 ≠ 400 / 2 := by
  refine ⟨?_, ?_, ?_, rfl, by norm_num⟩
  · exact Reachable.step (Reachable.step (Reachable.step Reachable.init
      (Step.load raceContent initialState))
      (Step.page .postcard .portrait raceContent _))
      (Step.decode 0 _)
  · rfl
  · unfold coverScale
    rw [if_pos (by norm_num)]

end Poster
